import Mathlib

/-
Verification of the commit-correspondence resolution engine of filter.py
(a git filter-branch helper that re-parents commits from an old upstream
branch onto a new upstream branch).

The script talks to git through subprocess calls; we embed it shallowly:
a `Repo` structure holds the answers git would give (commit metadata,
merge-base against OLD_UPSTREAM, the commits reachable from NEW_UPSTREAM,
parent lists, tree listings, and the outcome of the update-index shell
pipeline), and the filesystem visible to the script (the `../map/<rev>`
files and the GIT_INDEX_FILE path) is a partial map from path to file
contents.  Python string operations (strip, split, join) are re-implemented
by structural recursion on the character list so that all definitions are
executable and decidable on concrete inputs.
-/

deriving instance DecidableEq for Except

/-- Python `str.strip()`: drop leading and trailing whitespace. -/
def pyStrip (s : String) : String :=
  String.mk (((s.data.dropWhile Char.isWhitespace).reverse.dropWhile Char.isWhitespace).reverse)

/-- Helper for `pySplitWs`: accumulate the current token (reversed) while
scanning the character list. -/
def splitWsAux : List Char → List Char → List String
  | [], acc => if acc.isEmpty then [] else [String.mk acc.reverse]
  | c :: cs, acc =>
    if c.isWhitespace then
      (if acc.isEmpty then [] else [String.mk acc.reverse]) ++ splitWsAux cs []
    else splitWsAux cs (c :: acc)

/-- Python `str.split()` with no argument: split on whitespace runs,
discarding empty tokens. -/
def pySplitWs (s : String) : List String := splitWsAux s.data []

/-- Helper for `pySplitNl`. -/
def splitNlAux : List Char → List Char → List String
  | [], acc => [String.mk acc.reverse]
  | c :: cs, acc =>
    if c = '\n' then String.mk acc.reverse :: splitNlAux cs []
    else splitNlAux cs (c :: acc)

/-- Python `str.split('\n')`: split on every newline; the empty string
yields `[""]` (one empty field), never `[]`. -/
def pySplitNl (s : String) : List String := splitNlAux s.data []

/-- Python `sep.join(xs)`. -/
def pyJoin (sep : String) : List String → String
  | [] => ""
  | [x] => x
  | x :: xs => x ++ sep ++ pyJoin sep xs

/-- Python truthiness of an optional string (`if tp:`): `None` and the
empty string are falsy. -/
def pyTruthy : Option String → Bool
  | none => false
  | some s => !(s == "")

/-- `OLD_UPSTREAM='old-clang/master'` (filter.py line 11). -/
def OLD_UPSTREAM : String := "old-clang/master"

/-- `NEW_UPSTREAM='origin/master'` (filter.py line 12). -/
def NEW_UPSTREAM : String := "origin/master"

/-- A commit as the script consumes it: hash, author email (`%ae`) and
timestamp in seconds (`%at`). -/
structure Commit where
  hash : String
  email : String
  atime : Nat
deriving DecidableEq

/-- One line of `git ls-tree -r <rev>` output, split at its single tab:
`info` is "mode SP type SP hash" and `path` the file path. -/
structure TreeEntry where
  info : String
  path : String
deriving DecidableEq

/-- The read-only git state that filter.py queries through subprocess
calls, embedded as an oracle record.
* `mergeBaseOld rev` is the (stripped) output of `git merge-base rev
  OLD_UPSTREAM`.
* `oldAncestor rev` states whether rev is an ancestor-or-equal of the
  old-upstream tip `oldTip`; git guarantees `mergeBaseOld rev = rev` holds
  exactly when `oldAncestor rev` does, which theorems take as a pointwise
  hypothesis.
* `emailOf` / `atimeOf` are the fields printed by
  `git show -s --format=%at %ae rev`.
* `newCommits` is the list of commits reachable from NEW_UPSTREAM (the
  population `git log ... NEW_UPSTREAM` draws from), in log order.
* `parentsOf rev` is `git rev-list --parents -n 1 rev` minus the leading
  rev itself.
* `lsTree rev` is the `git ls-tree -r rev` listing.
* `shFail rev parent` is `none` when the update-index shell pipeline for
  `(rev, parent)` succeeds, and `some partialOutput` when `check_call`
  fails after having written `partialOutput` to the temporary index. -/
structure Repo where
  oldTip : String
  oldAncestor : String → Bool
  mergeBaseOld : String → String
  emailOf : String → String
  atimeOf : String → Nat
  newCommits : List Commit
  parentsOf : String → List String
  lsTree : String → List TreeEntry
  shFail : String → String → Option String

/-- The errors filter.py can raise, carrying exactly the data interpolated
into the corresponding Python message.
* `ambiguous`: `RuntimeError('Revision %s has more than one corresponding
  rev in new upstream, %s. ...' % (rev, NEW_UPSTREAM))` (lines 67-69).
* `unmapped`: `RuntimeError("Couldn't map_to_new_upstream revision %s from
  %s to %s." % (rev, OLD_UPSTREAM, NEW_UPSTREAM))` (lines 76-77).
* `malformedMapfile`: `RuntimeError("mapfile %s doesn't contain a single
  line: %s" % (mapfile, str(lines)))` (line 99).
* `indexError`: the uncaught IndexError from `parents[0]` on an empty
  parent list (line 116).
* `shellFailed`: `subprocess.check_call` raising on a failing pipeline
  (line 138). -/
inductive Err where
  | ambiguous (rev : String) (newUpstream : String)
  | unmapped (rev : String) (oldUpstream : String) (newUpstream : String)
  | malformedMapfile (path : String) (fileLines : List String)
  | indexError
  | shellFailed (rev : String) (parent : String)
deriving DecidableEq

/-- `should_edit` (filter.py lines 41-47): rev should be filtered iff
`git merge-base rev OLD_UPSTREAM` is not rev itself. -/
def should_edit (g : Repo) (rev : String) : Bool :=
  g.mergeBaseOld rev != rev

/-- Git semantics of the query on line 63-65: `git log --author email
--since t --until (t+1) --pretty=%H NEW_UPSTREAM` returns the commits
reachable from NEW_UPSTREAM whose author email matches and whose timestamp
lies in the 1-second tolerance window. -/
def matchingCommits (g : Repo) (rev : String) : List Commit :=
  g.newCommits.filter (fun c =>
    c.email == g.emailOf rev
      && decide (g.atimeOf rev ≤ c.atime)
      && decide (c.atime ≤ g.atimeOf rev + 1))

/-- The hashes of the matching commits, one per output line. -/
def matchingRevs (g : Repo) (rev : String) : List String :=
  (matchingCommits g rev).map (fun c => c.hash)

/-- The list `new_upstream_revs` of filter.py line 63-65: the raw stdout
is piped through `.strip().split('\n')`, which yields `[""]` (a single
empty field) when no commit matched, never the empty list. -/
def logLines (g : Repo) (rev : String) : List String :=
  let cs := matchingRevs g rev
  if cs.isEmpty then [""] else cs

/-- `map_to_new_upstream` (filter.py lines 50-80): find the commit of
NEW_UPSTREAM corresponding to rev by (timestamp, author email); more than
one candidate raises the ambiguity error; zero candidates raise the
unmapped error when rev is in OLD_UPSTREAM (fresh merge-base test) and
return None otherwise. -/
def map_to_new_upstream (g : Repo) (rev : String) : Except Err (Option String) :=
  let revs := logLines g rev
  if 1 < revs.length then
    .error (.ambiguous rev NEW_UPSTREAM)
  else if revs.isEmpty || revs.headD "" == "" then
    if g.mergeBaseOld rev = rev then
      .error (.unmapped rev OLD_UPSTREAM NEW_UPSTREAM)
    else
      .ok none
  else
    .ok (some (revs.headD ""))

/-- The filesystem visible to the script: path to file contents, `none`
when the file does not exist. -/
abbrev FS := String → Option String

/-- `map_to_filtered` (filter.py lines 83-102): read `../map/<rev>`; an
absent file (IOError) means "not yet rewritten" (None); otherwise the
contents are stripped and split on newlines and must form exactly one
line, else the malformed-mapfile error is raised. -/
def map_to_filtered (fs : FS) (rev : String) : Except Err (Option String) :=
  let mapfile := "../map/" ++ rev
  match fs mapfile with
  | none => .ok none
  | some contents =>
    let ls := pySplitNl (pyStrip contents)
    if ls.length ≠ 1 then .error (.malformedMapfile mapfile ls)
    else .ok (some (ls.headD ""))

/-- The generator loop of filter.py lines 117-121: walk the parents in
order, propagate the first exception, and stop at the first parent whose
`map_to_new_upstream` is a real correspondence; `none` when no parent has
one. -/
def resolveParent (g : Repo) : List String → Except Err (Option String)
  | [] => .ok none
  | p :: ps =>
    match map_to_new_upstream g p with
    | .error e => .error e
    | .ok (some tp) => .ok (some tp)
    | .ok none => resolveParent g ps

/-- The loop of filter.py lines 150-158: each `-p` marker token passes
through; every other token p is replaced by `map_to_new_upstream(p)` when
that result is truthy, and kept otherwise; the first exception aborts. -/
def rewriteParents (g : Repo) : List String → Except Err (List String)
  | [] => .ok []
  | p :: ps =>
    if p = "-p" then
      match rewriteParents g ps with
      | .error e => .error e
      | .ok rest => .ok (p :: rest)
    else
      match map_to_new_upstream g p with
      | .error e => .error e
      | .ok tp =>
        match rewriteParents g ps with
        | .error e => .error e
        | .ok rest => .ok ((if pyTruthy tp then tp.getD "" else p) :: rest)

/-- `filter_parent` (filter.py lines 142-160).  The result is the string
passed to `print`: when `should_edit` is false, standard input is echoed
verbatim; otherwise stdin is stripped, split on whitespace, rewritten
token by token, and joined with single spaces. -/
def filter_parent (g : Repo) (rev : String) (input : String) : Except Err String :=
  if !(should_edit g rev) then .ok input
  else
    match rewriteParents g (pySplitWs (pyStrip input)) with
    | .error e => .error e
    | .ok ps => .ok (pyJoin " " ps)

/-- Write one file: `fsWrite fs p c` has contents c at path p and is
unchanged elsewhere. -/
def fsWrite (fs : FS) (p : String) (c : String) : FS :=
  fun q => if q = p then some c else fs q

/-- `os.rename src dst`: dst now holds what src held, src is gone. -/
def fsRename (fs : FS) (src : String) (dst : String) : FS :=
  fun q => if q = dst then fs src else if q = src then none else fs q

/-- The sed half of the pipeline on line 134: `sed -e $'s:\t:\tclang/:'`
rewrites the first (only) tab of an ls-tree line, relocating the path
under the `clang/` namespace. -/
def sedNamespace (e : TreeEntry) : String :=
  e.info ++ "\t" ++ "clang/" ++ e.path

/-- An ls-tree line rendered unchanged. -/
def renderEntry (e : TreeEntry) : String :=
  e.info ++ "\t" ++ e.path

/-- Character-list test that p is a prefix of s, used to model
`grep -v $'\tclang/'` on ls-tree lines whose single tab is followed by
the path. -/
def strStarts (p s : String) : Bool :=
  List.isPrefixOf p.data s.data

/-- The text fed to `git update-index --index-info` by the shell pipeline
of filter.py lines 133-137: rev's own tree with every path namespaced
under `clang/`, concatenated with the parent's tree minus the entries
already under `clang/`. -/
def indexContent (g : Repo) (rev : String) (parentRev : String) : String :=
  pyJoin "\n"
    ((g.lsTree rev).map sedNamespace ++
      ((g.lsTree parentRev).filter (fun e => !(strStarts "clang/" e.path))).map renderEntry)

/-- `filter_index` (filter.py lines 106-139), as a transformer of the
visible filesystem (the `../map/*` files and the index path); the second
component is the exception that escaped, if any.  When `should_edit` is
false the function returns immediately.  Otherwise `parents[0]` is read
(IndexError on a root commit), the reference parent is resolved through
`map_to_new_upstream` and `map_to_filtered`, the new index is written to
the sibling path `index_file + '.new'` by the shell pipeline, and
`os.rename` publishes it over the original path in one step. -/
def filter_index (g : Repo) (fs : FS) (indexFile : String) (rev : String) :
    FS × Option Err :=
  if !(should_edit g rev) then (fs, none) else
  match g.parentsOf rev with
  | [] => (fs, some .indexError)
  | p0 :: ps =>
    match resolveParent g (p0 :: ps) with
    | .error e => (fs, some e)
    | .ok tpOpt =>
      let parentRev := tpOpt.getD p0
      match map_to_filtered fs parentRev with
      | .error e => (fs, some e)
      | .ok filtered =>
        let parentRev2 := if pyTruthy filtered then filtered.getD "" else parentRev
        let newIndexFile := indexFile ++ ".new"
        match g.shFail rev parentRev2 with
        | some badOut =>
          (fsWrite fs newIndexFile badOut, some (.shellFailed rev parentRev2))
        | none =>
          (fsRename (fsWrite fs newIndexFile (indexContent g rev parentRev2))
            newIndexFile indexFile, none)

/-- A small concrete repository used to instantiate the theorems:
* `base` and `A` form the old-upstream line (`A` is the tip);
* `B` is the new-upstream counterpart of `A` (same email, same second);
* `C` is a foreign commit with parent `A`;
* `D` is a foreign commit with no counterpart anywhere;
* `R` is a foreign root commit (no parents). -/
def egRepo : Repo where
  oldTip := "A"
  oldAncestor := fun r => r == "A" || r == "base"
  mergeBaseOld := fun r => if r == "A" || r == "base" then r else "base"
  emailOf := fun r =>
    if r == "A" then "alice@x" else
    if r == "C" then "carol@x" else
    if r == "D" then "dave@x" else
    if r == "base" then "root@x" else ""
  atimeOf := fun r =>
    if r == "A" then 100 else
    if r == "C" then 200 else
    if r == "base" then 50 else 0
  newCommits := [⟨"B", "alice@x", 100⟩]
  parentsOf := fun r => if r == "C" then ["A"] else []
  lsTree := fun r =>
    if r == "C" then [⟨"100644 blob aaaa", "foo.c"⟩] else
    if r == "Bfilt" then
      [⟨"100644 blob bbbb", "README"⟩, ⟨"100644 blob cccc", "clang/old.c"⟩]
    else []
  shFail := fun _ _ => none

/-- A repository in which two distinct new-upstream commits share the
author email and timestamp of commit `X`. -/
def ambRepo2 : Repo where
  oldTip := "A"
  oldAncestor := fun r => r == "A"
  mergeBaseOld := fun r => if r == "A" then r else "A"
  emailOf := fun _ => "alice@x"
  atimeOf := fun _ => 100
  newCommits := [⟨"B1", "alice@x", 100⟩, ⟨"B2", "alice@x", 100⟩]
  parentsOf := fun _ => []
  lsTree := fun _ => []
  shFail := fun _ _ => none

/-- Same as `ambRepo2` with a third colliding new-upstream commit. -/
def ambRepo3 : Repo where
  oldTip := "A"
  oldAncestor := fun r => r == "A"
  mergeBaseOld := fun r => if r == "A" then r else "A"
  emailOf := fun _ => "alice@x"
  atimeOf := fun _ => 100
  newCommits := [⟨"B1", "alice@x", 100⟩, ⟨"B2", "alice@x", 100⟩, ⟨"B3", "alice@x", 100⟩]
  parentsOf := fun _ => []
  lsTree := fun _ => []
  shFail := fun _ _ => none

/-- The empty filesystem: no map files, no index file. -/
def fsEmpty : FS := fun _ => none

/-- A filesystem in which commit `B` has already been rewritten to
`Bfilt` (a well-formed one-line map file). -/
def fsMapB : FS := fun p => if p = "../map/B" then some "Bfilt\n" else none

/-- A filesystem holding a malformed (two-line) map file for `M`. -/
def fsMapBad : FS := fun p => if p = "../map/M" then some "a\nb\n" else none

/-- Appending the `.new` suffix always changes a path, so the temporary
index path is distinct from the original one. -/
theorem append_new_ne (s : String) : s ++ ".new" ≠ s := by
  intro h
  have h2 := congrArg String.length h
  rw [String.length_append] at h2
  have h4 : (".new" : String).length = 4 := rfl
  omega

/-- C4: should_edit(rev) is true iff the merge-base of rev and the
old-upstream tip is not rev itself, i.e. iff rev is not an
ancestor-or-equal of the old-upstream tip; in particular it is false at
the old-upstream tip. -/
theorem should_edit_iff (g : Repo) (rev : String)
    (h1 : g.mergeBaseOld rev = rev ↔ g.oldAncestor rev = true)
    (h2 : g.oldAncestor g.oldTip = true)
    (h3 : g.mergeBaseOld g.oldTip = g.oldTip ↔ g.oldAncestor g.oldTip = true) :
    (should_edit g rev = true ↔ ¬(g.mergeBaseOld rev = rev)) ∧
    (should_edit g rev = true ↔ g.oldAncestor rev = false) ∧
    should_edit g g.oldTip = false := by
  refine ⟨by simp [should_edit, bne_iff_ne], ?_, ?_⟩
  · rw [show (should_edit g rev = true ↔ ¬(g.mergeBaseOld rev = rev)) from
      by simp [should_edit, bne_iff_ne]]
    constructor
    · intro h
      cases hh : g.oldAncestor rev
      · rfl
      · exact absurd (h1.mpr hh) h
    · intro h hmb
      rw [h1.mp hmb] at h
      cases h
  · have : g.mergeBaseOld g.oldTip = g.oldTip := h3.mpr h2
    simp [should_edit, this]

/-- C4 witness: in the example repository, `C` (foreign) is edited and
the old-upstream tip `A` is not. -/
theorem should_edit_iff_witness :
    should_edit egRepo "C" = true ∧ should_edit egRepo egRepo.oldTip = false := by
  have h := should_edit_iff egRepo "C" (by decide) (by decide) (by decide)
  exact ⟨h.2.1.mpr (by decide), h.2.2⟩

/-- C7: when should_edit(rev) is false, filter_parent echoes its standard
input unchanged and filter_index performs no filesystem change and raises
nothing; both are strict no-ops, so re-running them changes nothing. -/
theorem noop_when_not_edit (g : Repo) (fs : FS) (idx rev input : String)
    (hse : should_edit g rev = false) :
    filter_parent g rev input = .ok input ∧
    filter_index g fs idx rev = (fs, none) := by
  constructor
  · simp [filter_parent, hse]
  · simp [filter_index, hse]

/-- C7 witness: the old-upstream tip `A` passes through both modes
untouched. -/
theorem noop_when_not_edit_witness :
    filter_parent egRepo "A" "-p x -p y" = .ok "-p x -p y" ∧
    filter_index egRepo fsEmpty "idx" "A" = (fsEmpty, none) :=
  noop_when_not_edit egRepo fsEmpty "idx" "A" "-p x -p y" (by decide)

/-- C10: on an edited commit with no parents (a root commit),
filter_index fails with the IndexError raised by `parents[0]` and leaves
the filesystem unchanged; it never produces a rewritten tree. -/
theorem filter_index_root_fails (g : Repo) (fs : FS) (idx rev : String)
    (hse : should_edit g rev = true) (hp : g.parentsOf rev = []) :
    filter_index g fs idx rev = (fs, some .indexError) := by
  simp [filter_index, hse, hp]

/-- C10 witness: the foreign root commit `R` makes filter_index fail. -/
theorem filter_index_root_fails_witness :
    filter_index egRepo fsEmpty "idx" "R" = (fsEmpty, some .indexError) :=
  filter_index_root_fails egRepo fsEmpty "idx" "R" (by decide) (by decide)

/-- C3: with zero candidates in the new-upstream log,
map_to_new_upstream raises the missing-correspondence error (carrying
both upstream names) exactly when the merge-base test places rev in the
old-upstream ancestry, and returns None without error otherwise. -/
theorem zero_match_behavior (g : Repo) (rev : String)
    (h : matchingCommits g rev = []) :
    (map_to_new_upstream g rev = .error (.unmapped rev OLD_UPSTREAM NEW_UPSTREAM) ↔
      g.mergeBaseOld rev = rev) ∧
    (g.mergeBaseOld rev ≠ rev → map_to_new_upstream g rev = .ok none) := by
  by_cases hmb : g.mergeBaseOld rev = rev <;>
    simp [map_to_new_upstream, logLines, matchingRevs, h, hmb]

/-- C3 witness: the foreign commit `D` has no candidate and maps to None
without error. -/
theorem zero_match_behavior_witness :
    map_to_new_upstream egRepo "D" = .ok none :=
  (zero_match_behavior egRepo "D" (by decide)).2 (by decide)

/-- C2 counterexample: the ambiguity errors raised for a two-candidate
and for a three-candidate collision are the same value, carrying the
offending commit and the new-upstream name; the candidate count is not
part of what is surfaced, contrary to the claim. -/
theorem ambiguity_count_not_surfaced :
    map_to_new_upstream ambRepo2 "X" = .error (.ambiguous "X" NEW_UPSTREAM) ∧
    map_to_new_upstream ambRepo3 "X" = .error (.ambiguous "X" NEW_UPSTREAM) ∧
    (matchingCommits ambRepo2 "X").length = 2 ∧
    (matchingCommits ambRepo3 "X").length = 3 ∧
    map_to_new_upstream ambRepo2 "X" = map_to_new_upstream ambRepo3 "X" := by
  decide

/-- C2 (amended): with more than one candidate, map_to_new_upstream
raises the fatal ambiguity error, surfaced with the offending commit and
the new-upstream name. -/
theorem ambiguity_error_raised (g : Repo) (rev : String)
    (h : 1 < (matchingCommits g rev).length) :
    map_to_new_upstream g rev = .error (.ambiguous rev NEW_UPSTREAM) := by
  have hlen : (matchingRevs g rev).length = (matchingCommits g rev).length := by
    simp [matchingRevs]
  have hne : (matchingRevs g rev).isEmpty = false := by
    cases hm : matchingRevs g rev with
    | nil => rw [hm] at hlen; simp at hlen; omega
    | cons a l => rfl
  simp [map_to_new_upstream, logLines, hne, hlen, h]

/-- C2 witness: the two-candidate repository triggers the ambiguity
error. -/
theorem ambiguity_error_raised_witness :
    map_to_new_upstream ambRepo2 "Y" = .error (.ambiguous "Y" NEW_UPSTREAM) :=
  ambiguity_error_raised ambRepo2 "Y" (by decide)

/-- C8: map_to_filtered returns None when the map file `../map/<rev>` is
absent, the single recorded line when the stripped contents split into
exactly one line, and the malformed-mapfile error carrying the path and
the split contents otherwise. -/
theorem map_to_filtered_spec (fs : FS) (rev : String) :
    (fs ("../map/" ++ rev) = none → map_to_filtered fs rev = .ok none) ∧
    (∀ c, fs ("../map/" ++ rev) = some c →
      ((pySplitNl (pyStrip c)).length = 1 →
        map_to_filtered fs rev = .ok (some ((pySplitNl (pyStrip c)).headD ""))) ∧
      ((pySplitNl (pyStrip c)).length ≠ 1 →
        map_to_filtered fs rev =
          .error (.malformedMapfile ("../map/" ++ rev) (pySplitNl (pyStrip c))))) := by
  refine ⟨fun h => by simp [map_to_filtered, h], fun c hc => ⟨fun h1 => ?_, fun h1 => ?_⟩⟩
  · simp [map_to_filtered, hc, h1]
  · simp [map_to_filtered, hc, h1]

/-- C8 witness: an absent map file is a miss, a one-line file returns its
hash, and a two-line file raises the malformed-entry error. -/
theorem map_to_filtered_spec_witness :
    map_to_filtered fsEmpty "B" = .ok none ∧
    map_to_filtered fsMapB "B" = .ok (some "Bfilt") ∧
    map_to_filtered fsMapBad "M" = .error (.malformedMapfile "../map/M" ["a", "b"]) := by
  refine ⟨(map_to_filtered_spec fsEmpty "B").1 (by decide), ?_, ?_⟩
  · have h := ((map_to_filtered_spec fsMapB "B").2 "Bfilt\n" (by decide)).1 (by decide)
    rw [h]; decide
  · have h := ((map_to_filtered_spec fsMapBad "M").2 "a\nb\n" (by decide)).2 (by decide)
    rw [h]; decide

/-- C1: for a commit on the old-upstream line whose identity heuristic
has exactly one candidate (the spec's hard invariant plus its uniqueness
assumption), map_to_new_upstream returns exactly that commit, whose
author email equals rev's and whose timestamp lies in the 1-second
tolerance window of rev's. -/
theorem map_corresponds_on_old_line (g : Repo) (rev : String) (c : Commit)
    (_hold : g.oldAncestor rev = true)
    (hm : matchingCommits g rev = [c])
    (hne : c.hash ≠ "") :
    map_to_new_upstream g rev = .ok (some c.hash) ∧
    c.email = g.emailOf rev ∧
    g.atimeOf rev ≤ c.atime ∧ c.atime ≤ g.atimeOf rev + 1 := by
  have hcmem : c ∈ matchingCommits g rev := by
    rw [hm]; exact List.mem_singleton_self c
  have hpred := List.of_mem_filter (p := fun c : Commit =>
    c.email == g.emailOf rev && decide (g.atimeOf rev ≤ c.atime)
      && decide (c.atime ≤ g.atimeOf rev + 1)) hcmem
  simp only [Bool.and_eq_true, beq_iff_eq, decide_eq_true_eq] at hpred
  have hb : (c.hash == "") = false := by simp [hne]
  refine ⟨?_, hpred.1.1, hpred.1.2, hpred.2⟩
  simp [map_to_new_upstream, logLines, matchingRevs, hm, hb]

/-- C1 witness: old-tip `A` maps to its unique counterpart `B`. -/
theorem map_corresponds_on_old_line_witness :
    map_to_new_upstream egRepo "A" = .ok (some (Commit.hash ⟨"B", "alice@x", 100⟩)) ∧
    Commit.email ⟨"B", "alice@x", 100⟩ = egRepo.emailOf "A" ∧
    egRepo.atimeOf "A" ≤ Commit.atime ⟨"B", "alice@x", 100⟩ ∧
    Commit.atime ⟨"B", "alice@x", 100⟩ ≤ egRepo.atimeOf "A" + 1 :=
  map_corresponds_on_old_line egRepo "A" ⟨"B", "alice@x", 100⟩
    (by decide) (by decide) (by decide)

/-- A successful real correspondence is never the empty string: the code
routes an empty first log line to the zero-match branch. -/
theorem map_ok_some_ne_empty (g : Repo) (p s : String)
    (h : map_to_new_upstream g p = .ok (some s)) : s ≠ "" := by
  unfold map_to_new_upstream at h
  cases hl : logLines g p with
  | nil =>
    rw [hl] at h
    simp at h
    split at h <;> simp at h
  | cons a l =>
    rw [hl] at h
    by_cases h1 : 1 < (a :: l).length
    · rw [if_pos h1] at h
      simp at h
    · rw [if_neg h1] at h
      by_cases ha : a = ""
      · subst ha
        rw [if_pos (by simp)] at h
        split at h <;> simp at h
      · rw [if_neg (by simp [ha])] at h
        simp at h
        exact h ▸ ha

/-- The truthiness test on a successful map_to_new_upstream result agrees
with `Option.getD`: a real correspondence (never empty) replaces the
parent, absence keeps it. -/
theorem truthy_getD (g : Repo) (p : String) (tp : Option String)
    (h : map_to_new_upstream g p = .ok tp) :
    (if pyTruthy tp then tp.getD "" else p) = tp.getD p := by
  cases tp with
  | none => simp [pyTruthy]
  | some s =>
    have hs := map_ok_some_ne_empty g p s h
    simp [pyTruthy, hs]

/-- The flag-tagged parent token stream `-p h1 -p h2 ...`. -/
def parentTokens : List String → List String
  | [] => []
  | h :: t => "-p" :: h :: parentTokens t

/-- The token stream has twice as many tokens as there are parents. -/
theorem parentTokens_length (l : List String) :
    (parentTokens l).length = 2 * l.length := by
  induction l with
  | nil => rfl
  | cons h t ih => simp [parentTokens, ih]; omega

/-- The rewrite loop on a well-formed token stream: every `-p` marker is
kept in place and each parent is replaced by its correspondence when one
exists and kept otherwise. -/
theorem rewriteParents_tokens (g : Repo) (f : String → Option String) :
    ∀ hs : List String, (∀ h ∈ hs, h ≠ "-p") →
      (∀ h ∈ hs, map_to_new_upstream g h = .ok (f h)) →
      rewriteParents g (parentTokens hs) =
        .ok (parentTokens (hs.map (fun h => (f h).getD h)))
  | [], _, _ => rfl
  | h :: t, hflag, hmaps => by
    have hmap := hmaps h (List.mem_cons_self h t)
    have hne : h ≠ "-p" := hflag h (List.mem_cons_self h t)
    have ih := rewriteParents_tokens g f t
      (fun x hx => hflag x (List.mem_cons_of_mem h hx))
      (fun x hx => hmaps x (List.mem_cons_of_mem h hx))
    have hsub := truthy_getD g h (f h) hmap
    simp [parentTokens, rewriteParents, hne, hmap, ih, hsub]

/-- C6: on an edited commit, filter_parent maps a `-p h1 -p h2 ...`
token stream to the same flag-tagged structure in which each parent with
an existing correspondence is replaced by it and every other parent is
kept, preserving order and count (merge commits included). -/
theorem filter_parent_rewrite (g : Repo) (rev input : String)
    (hs : List String) (f : String → Option String)
    (hse : should_edit g rev = true)
    (htoks : pySplitWs (pyStrip input) = parentTokens hs)
    (hflag : ∀ h ∈ hs, h ≠ "-p")
    (hmaps : ∀ h ∈ hs, map_to_new_upstream g h = .ok (f h)) :
    filter_parent g rev input =
      .ok (pyJoin " " (parentTokens (hs.map (fun h => (f h).getD h)))) ∧
    (parentTokens (hs.map (fun h => (f h).getD h))).length =
      (parentTokens hs).length := by
  constructor
  · simp [filter_parent, hse, htoks, rewriteParents_tokens g f hs hflag hmaps]
  · simp [parentTokens_length]

/-- C6 witness: the merge commit input `-p A -p D` becomes `-p B -p D`:
parent `A` is replaced by its counterpart `B`, the unmatched parent `D`
is kept, and order and count survive. -/
theorem filter_parent_rewrite_witness :
    filter_parent egRepo "C" "-p A -p D" = .ok "-p B -p D" := by
  have h := (filter_parent_rewrite egRepo "C" "-p A -p D" ["A", "D"]
    (fun p => if p == "A" then some "B" else none)
    (by decide) (by decide) (by decide) (by decide)).1
  rw [h]; decide

/-- The generator loop computes `List.findSome?`: the first parent whose
mapping is a real correspondence wins, provided no mapping raises. -/
theorem resolveParent_findSome (g : Repo) (f : String → Option String) :
    ∀ l : List String, (∀ p ∈ l, map_to_new_upstream g p = .ok (f p)) →
      resolveParent g l = .ok (l.findSome? f)
  | [], _ => rfl
  | p :: ps, hmaps => by
    have hmap := hmaps p (List.mem_cons_self p ps)
    have ih := resolveParent_findSome g f ps
      (fun x hx => hmaps x (List.mem_cons_of_mem p hx))
    cases hfp : f p with
    | none => simp [resolveParent, hmap, hfp, ih, List.findSome?_cons]
    | some tp => simp [resolveParent, hmap, hfp, List.findSome?_cons]

/-- C5: on an edited commit, filter_index takes as reference parent the
first original parent with a real correspondence (`findSome?`), falling
back to the first original parent when none has one; when the RewriteMap
holds an entry for that reference parent, the rewritten hash is the one
whose tree the shell pipeline reads; the new index is then built at the
sibling `.new` path and renamed over the original. -/
theorem filter_index_parent_choice (g : Repo) (fs : FS) (idx rev p0 : String)
    (ps : List String) (f : String → Option String) (fo : Option String)
    (base final : String)
    (hse : should_edit g rev = true)
    (hp : g.parentsOf rev = p0 :: ps)
    (hmaps : ∀ p ∈ p0 :: ps, map_to_new_upstream g p = .ok (f p))
    (hbase : base = ((p0 :: ps).findSome? f).getD p0)
    (hfil : map_to_filtered fs base = .ok fo)
    (hfinal : final = (if pyTruthy fo then fo.getD "" else base))
    (hsh : g.shFail rev final = none) :
    filter_index g fs idx rev =
      (fsRename (fsWrite fs (idx ++ ".new") (indexContent g rev final))
        (idx ++ ".new") idx, none) := by
  subst hbase
  subst hfinal
  have hres := resolveParent_findSome g f (p0 :: ps) hmaps
  simp [filter_index, hse, hp, hres, hfil, hsh]

/-- C5 witness: commit `C`'s only parent `A` maps to `B`, whose map file
rewrites it to `Bfilt`; the pipeline then reads `Bfilt`'s tree. -/
theorem filter_index_parent_choice_witness :
    filter_index egRepo fsMapB "idx" "C" =
      (fsRename (fsWrite fsMapB ("idx" ++ ".new") (indexContent egRepo "C" "Bfilt"))
        ("idx" ++ ".new") "idx", none) :=
  filter_index_parent_choice egRepo fsMapB "idx" "C" "A" []
    (fun p => if p == "A" then some "B" else none) (some "Bfilt") "B" "Bfilt"
    (by decide) (by decide) (by decide) (by decide) (by decide) (by decide) (by decide)

/-- Exhaustive outcome analysis of filter_index: a no-op (not edited), an
error with the filesystem untouched, a failed pipeline that wrote only to
the sibling `.new` path, or a success that wrote the computed index to
the `.new` path and renamed it over the original. -/
theorem filter_index_cases (g : Repo) (fs : FS) (idx rev : String) :
    (filter_index g fs idx rev = (fs, none) ∧ should_edit g rev = false) ∨
    (∃ e, filter_index g fs idx rev = (fs, some e)) ∨
    (∃ pr bad, filter_index g fs idx rev =
      (fsWrite fs (idx ++ ".new") bad, some (.shellFailed rev pr))) ∨
    (∃ content, filter_index g fs idx rev =
      (fsRename (fsWrite fs (idx ++ ".new") content) (idx ++ ".new") idx, none) ∧
      should_edit g rev = true) := by
  by_cases hse : should_edit g rev
  · cases hps : g.parentsOf rev with
    | nil =>
      exact Or.inr (Or.inl ⟨.indexError, by simp [filter_index, hse, hps]⟩)
    | cons p0 ps =>
      cases hres : resolveParent g (p0 :: ps) with
      | error e =>
        exact Or.inr (Or.inl ⟨e, by simp [filter_index, hse, hps, hres]⟩)
      | ok tpOpt =>
        cases hfil : map_to_filtered fs (tpOpt.getD p0) with
        | error e =>
          exact Or.inr (Or.inl ⟨e, by simp [filter_index, hse, hps, hres, hfil]⟩)
        | ok filtered =>
          cases hsh : g.shFail rev
              (if pyTruthy filtered then filtered.getD "" else tpOpt.getD p0) with
          | some bad =>
            refine Or.inr (Or.inr (Or.inl
              ⟨if pyTruthy filtered then filtered.getD "" else tpOpt.getD p0, bad, ?_⟩))
            simp [filter_index, hse, hps, hres, hfil, hsh]
          | none =>
            refine Or.inr (Or.inr (Or.inr
              ⟨indexContent g rev
                (if pyTruthy filtered then filtered.getD "" else tpOpt.getD p0), ?_, hse⟩))
            simp [filter_index, hse, hps, hres, hfil, hsh]
  · exact Or.inl ⟨by simp [filter_index, hse], by simp [hse]⟩

/-- C9: whenever filter_index ends in an error, the original index path
holds exactly what it held before (only the sibling `.new` path may have
been touched); on success of an edited commit, some computed index
content was staged at the sibling `.new` path and published to the
original path by the rename, after which the temporary path is gone. -/
theorem index_atomicity :
    (∀ (g : Repo) (fs : FS) (idx rev : String) (e : Err),
      (filter_index g fs idx rev).2 = some e →
      (filter_index g fs idx rev).1 idx = fs idx) ∧
    (∀ (g : Repo) (fs : FS) (idx rev : String),
      should_edit g rev = true → (filter_index g fs idx rev).2 = none →
      ∃ content,
        (filter_index g fs idx rev).1 =
          fsRename (fsWrite fs (idx ++ ".new") content) (idx ++ ".new") idx ∧
        (filter_index g fs idx rev).1 idx = some content ∧
        (filter_index g fs idx rev).1 (idx ++ ".new") = none) := by
  constructor
  · intro g fs idx rev e h
    rcases filter_index_cases g fs idx rev with
      ⟨heq, _⟩ | ⟨e2, heq⟩ | ⟨pr, bad, heq⟩ | ⟨c, heq, _⟩
    · rw [heq] at h; cases h
    · rw [heq]
    · rw [heq]
      simp [fsWrite, Ne.symm (append_new_ne idx)]
    · rw [heq] at h; cases h
  · intro g fs idx rev hse h
    rcases filter_index_cases g fs idx rev with
      ⟨heq, hf⟩ | ⟨e2, heq⟩ | ⟨pr, bad, heq⟩ | ⟨c, heq, _⟩
    · rw [hse] at hf; cases hf
    · rw [heq] at h; cases h
    · rw [heq] at h; cases h
    · refine ⟨c, by rw [heq], ?_, ?_⟩
      · rw [heq]
        simp [fsRename, fsWrite]
      · rw [heq]
        simp [fsRename, fsWrite, append_new_ne idx]

/-- C9 witness: the root commit `R` fails and leaves the index path
unchanged; the edited commit `C` succeeds and publishes its computed
index at the original path with the temporary path removed. -/
theorem index_atomicity_witness :
    (filter_index egRepo fsEmpty "idx" "R").1 "idx" = fsEmpty "idx" ∧
    ∃ content,
      (filter_index egRepo fsMapB "idx" "C").1 =
        fsRename (fsWrite fsMapB ("idx" ++ ".new") content) ("idx" ++ ".new") "idx" ∧
      (filter_index egRepo fsMapB "idx" "C").1 "idx" = some content ∧
      (filter_index egRepo fsMapB "idx" "C").1 ("idx" ++ ".new") = none :=
  ⟨index_atomicity.1 egRepo fsEmpty "idx" "R" .indexError (by decide),
   index_atomicity.2 egRepo fsMapB "idx" "C" (by decide) (by decide)⟩
